import Mathlib

/-!
Verification of the Transcriptor CLI pipeline (src/index.js) against its
natural-language specification.

The development shallowly embeds the pipeline pieces the claims are about:
strings are modelled as Lean strings (sequences of characters standing for
the JS code units), filesystem and network effects are made explicit by
passing the relevant observations (file sizes, directory listings, service
responses) as arguments, and fallible steps return Except or a result type
with an explicit failure constructor.
-/

namespace Transcriptor

/-! ## Generic string helpers

JS string primitives (endsWith, toLowerCase, trim, default sort order) are
modelled on the underlying character list so that all definitions reduce in
the kernel.  Each helper states which JS primitive it stands for. -/

/-- Models the JS expression s.endsWith(t): t is a suffix of s. -/
def strEndsWith (s t : String) : Bool :=
  decide (t.data.length ≤ s.data.length) &&
    (s.data.drop (s.data.length - t.data.length) == t.data)

/-- ASCII lower-casing of one character, as toLowerCase acts on the
letters relevant here (file extensions). -/
def lowerChar (c : Char) : Char :=
  if 'A' ≤ c ∧ c ≤ 'Z' then Char.ofNat (c.toNat + 32) else c

/-- Models the JS expression s.toLowerCase() (ASCII fragment). -/
def toLowerStr (s : String) : String :=
  String.mk (s.data.map lowerChar)

/-- Whitespace test used by the model of JS trim. -/
def trimChar (c : Char) : Bool :=
  c = ' ' ∨ c = '\n' ∨ c = '\t' ∨ c = '\r'

/-- Models the JS expression s.trim(): strip leading and trailing whitespace. -/
def trimStr (s : String) : String :=
  String.mk (((s.data.dropWhile trimChar).reverse.dropWhile trimChar).reverse)

/-- Lexicographic comparison of character lists by code unit, the order used
by the default JS Array.prototype.sort on strings. -/
def listLexLe : List Char → List Char → Bool
  | [], _ => true
  | _ :: _, [] => false
  | a :: as, b :: bs =>
    if a.toNat < b.toNat then true
    else if b.toNat < a.toNat then false
    else listLexLe as bs

/-- String comparison used by the batch queue sort. -/
def strLe (a b : String) : Bool :=
  listLexLe a.data b.data

/-- Models the JS expression s.endsWith(newline) used by the continue-mode
append: the last character of s is a newline. -/
def endsWithNewline (s : String) : Bool :=
  s.data.getLast? == some '\n'

/-- Models the JS replacement basename.replace of the trailing-extension
regex by the empty string: drop the last dot together with the nonempty,
dot-free run of characters following it; when the basename ends in a dot or
has no dot, it is returned unchanged. -/
def stripExt (s : String) : String :=
  let rev := s.data.reverse
  let afterDot := rev.takeWhile (fun c => c ≠ '.')
  if afterDot.length = rev.length ∨ afterDot.length = 0 then s
  else String.mk ((rev.drop (afterDot.length + 1)).reverse)

/-- Separator-delimited concatenation: the blocks in order with sep between
consecutive blocks (used to state what N continue-mode appends produce). -/
def sepJoin (sep : String) : List String → String
  | [] => ""
  | [b] => b
  | b :: b2 :: bs => b ++ sep ++ sepJoin sep (b2 :: bs)

/-- Tail of a separator-delimited file: for each block, the separator, the
block, and the trailing newline the writer adds. -/
def blockTail (sep : String) : List String → String
  | [] => ""
  | b :: bs => sep ++ (b ++ ("\n" ++ blockTail sep bs))

/-! ## chunkString (src lines 289-293)

The JS loop advances an index by size on every iteration, pushing
str.slice(i, i + size).  We recurse on the remaining characters, with a fuel
argument bounding the number of iterations by the string length; for
size at least 1 every iteration consumes at least one character, so the fuel
is never exhausted on a nonempty remainder.  For size = 0 the JS loop does
not terminate, so no claim concerns that case. -/

def chunkListGo (size : Nat) : Nat → List Char → List (List Char)
  | _, [] => []
  | 0, l => [l]
  | fuel + 1, a :: rest => ((a :: rest).take size) :: chunkListGo size fuel ((a :: rest).drop size)

/-- Embedding of chunkString(str, size). -/
def chunkString (str : String) (size : Nat) : List String :=
  (chunkListGo size str.data.length str.data).map String.mk

/-! ## summarizeText (src lines 330-369)

The network is abstracted by an oracle mapping each chat request (system
message and user message; model name and temperature are fixed in the source
and carry no information) to the text content of the response.  The
embedding returns the list of requests issued, in order, together with the
returned summary, so that call counts and request payloads are stated
directly. -/

structure ChatRequest where
  system : String
  user : String
deriving DecidableEq, Repr

/-- Request issued when the text fits in one call (src lines 334-343). -/
def singleSummaryRequest (langPrompt text : String) : ChatRequest :=
  { system := "You are a helpful assistant creating concise summaries " ++ langPrompt ++
      " as a bullet list. Return only bullets starting with \x27- \x27, with no preface or conclusion."
    user := "List the most important points from the transcript as a bullet list (each bullet starts with \x27- \x27):\n\n" ++ text }

/-- Request issued for chunk i (zero-based) of n chunks (src lines 348-357). -/
def chunkSummaryRequest (langPrompt : String) (n i : Nat) (chunk : String) : ChatRequest :=
  { system := "Summarize content " ++ langPrompt ++
      " as a bullet list. Return only bullets starting with \x27- \x27."
    user := "Summarize part " ++ toString (i + 1) ++ "/" ++ toString n ++
      " as a bullet list (each bullet starts with \x27- \x27):\n\n" ++ chunk }

/-- Final merge request over the joined partial summaries (src lines 360-367). -/
def mergeSummaryRequest (langPrompt partials : String) : ChatRequest :=
  { system := "Combine the partial summaries " ++ langPrompt ++
      " into one concise, logically ordered bullet list. Deduplicate. Return only bullets, each line starting with \x27- \x27."
    user := partials }

/-- Embedding of summarizeText(openai, text, langPrompt): the requests made,
in order, and the returned summary. -/
def summarizeText (oracle : ChatRequest → String) (text langPrompt : String) :
    List ChatRequest × String :=
  if text.length ≤ 15000 then
    let req := singleSummaryRequest langPrompt text
    ([req], trimStr (oracle req))
  else
    let chunks := chunkString text 15000
    let reqs := chunks.enum.map fun p => chunkSummaryRequest langPrompt chunks.length p.1 p.2
    let partials := reqs.map fun r => trimStr (oracle r)
    let merge := mergeSummaryRequest langPrompt (String.intercalate "\n\n" partials)
    (reqs ++ [merge], trimStr (oracle merge))

/-! ## ensureAudioUnderLimit (src lines 392-411)

The filesystem is abstracted by the two sizes getFileSize observes: size is
the size of the payload produced by the initial extractAudio call at the
default 24 kbps (src line 463, default at line 268), and newSize the size of
the distinct file base.recompressed.ogg produced by the single recompression
at 16 kbps.  getFileSize (src lines 383-390) returns the stat size, or 0
when stat fails, so 0 also encodes a missing file.  The embedding returns
the list of bitrates of the transcoder invocations performed inside the
enforcer together with the outcome; the thrown error carries the measured
recompressed size and the limit (the message renders both in MB). -/

inductive AudioFile where
  | original
  | recompressed
deriving DecidableEq, Repr

/-- Embedding of ensureAudioUnderLimit(inputPath, limitBytes). -/
def ensureAudioUnderLimit (size newSize limit : Nat) :
    List Nat × Except (Nat × Nat) AudioFile :=
  if 0 < size ∧ size ≤ limit then ([], Except.ok AudioFile.original)
  else if 0 < newSize ∧ newSize ≤ limit then ([16], Except.ok AudioFile.recompressed)
  else ([16], Except.error (newSize, limit))

/-- All transcoder invocations of one pipeline run that concern the audio
payload: the initial extractAudio call at the default 24 kbps (src line 463)
followed by whatever the size enforcer performs. -/
def pipelineTranscodeBitrates (size newSize limit : Nat) : List Nat :=
  24 :: (ensureAudioUnderLimit size newSize limit).1

/-! ## transcribeAudio (src lines 371-381) and the pipeline error taxonomy -/

inductive StageError where
  | acquisition (msg : String)
  | transcode (msg : String)
  | sizeLimit (measured limit : Nat)
  | emptyTranscription
  | summarization (msg : String)
deriving DecidableEq, Repr

/-- Message attached to each stage failure, as thrown by the source. -/
def stageMessage : StageError → String
  | StageError.acquisition msg => msg
  | StageError.transcode msg => msg
  | StageError.sizeLimit _ _ =>
      "Audio still exceeds size limit after recompression. Consider a shorter clip."
  | StageError.emptyTranscription => "Received empty transcription."
  | StageError.summarization msg => msg

/-- Embedding of transcribeAudio(openai, audioPath).  The service is
abstracted by the text field of the response to each possible attempt
(none when the field is absent); the source makes exactly one request, so
only attempt 0 is ever consulted.  Blank text is a hard failure. -/
def transcribeAudio (api : Nat → Option String) : Except StageError String :=
  let text := trimStr ((api 0).getD "")
  if text = "" then Except.error StageError.emptyTranscription else Except.ok text

/-! ## Connectivity retry policy (not present under src/)

Modelled from the spec: the local-file-mode variant of the transcription
call that retries only connectivity-class failures (timeout, DNS, reset) up
to a fixed attempt count with linearly increasing backoff (attempt times the
base delay) is code of this repository that is not under src/; only the
single-call transcribeAudio above is.  The model below follows the words of
sections 4.4 and 7 of the spec: the service outcome of each attempt is
abstracted by a function of the attempt number; the result records the
backoff delays slept between attempts, so the number of requests made is the
number of delays plus one. -/

inductive APIOutcome where
  | success (text : String)
  | connectivityFailure
  | otherFailure
deriving DecidableEq, Repr

inductive TranscribeFailure where
  | empty
  | connectivity
  | nonRetryable
deriving DecidableEq, Repr

/-- Modelled from the spec: reaction to the outcome of one transcription
attempt.  Blank text and non-connectivity failures surface immediately; a
connectivity failure continues with the supplied retry continuation. -/
def retryOutcome (out : APIOutcome) (onConn : List Nat × Except TranscribeFailure String) :
    List Nat × Except TranscribeFailure String :=
  match out with
  | APIOutcome.success t =>
      if trimStr t = "" then ([], Except.error TranscribeFailure.empty)
      else ([], Except.ok (trimStr t))
  | APIOutcome.otherFailure => ([], Except.error TranscribeFailure.nonRetryable)
  | APIOutcome.connectivityFailure => onConn

/-- Modelled from the spec: retry wrapper around the transcription call.
attempt is the 1-based number of the current attempt, remaining the number
of attempts still allowed after it; a retry sleeps attempt times baseDelay
first, recorded in the returned delay list. -/
def transcribeWithRetry (api : Nat → APIOutcome) (baseDelay : Nat) :
    (attempt remaining : Nat) → List Nat × Except TranscribeFailure String
  | attempt, 0 =>
      retryOutcome (api attempt) ([], Except.error TranscribeFailure.connectivity)
  | attempt, r + 1 =>
      let rest := transcribeWithRetry api baseDelay (attempt + 1) r
      retryOutcome (api attempt) (attempt * baseDelay :: rest.1, rest.2)

/-! ## buildOutputBlock (src lines 413-427) -/

/-- Embedding of buildOutputBlock.  The JS truthiness test on
titleIfProvided omits the heading both for a missing title and for an empty
one; summary falls back to the literal none marker when empty.  The lines
are joined by newlines, the final empty line yielding the trailing newline. -/
def buildOutputBlock (titleIfProvided : Option String) (summary transcript : String) : String :=
  let titleLines :=
    match titleIfProvided with
    | some t => if t = "" then [] else ["## " ++ t]
    | none => []
  String.intercalate "\n"
    (titleLines ++
      ["### 📋 Podsumowanie",
       (if summary = "" then "(none)" else summary),
       "",
       "### 📖 Transkrypt",
       transcript,
       ""])

/-! ## Output writing (src lines 441-446 and 487-494)

The destination file is abstracted by its content (none when the file does
not exist).  The source first checks existence: when the file exists and
continue mode is off it logs a skip and returns false (no write, no error).
Otherwise step 6 either appends (continue mode, file exists) or writes the
fresh content. -/

inductive WriteResult where
  | skipped
  | written (content : String)
deriving DecidableEq, Repr

/-- The literal separator of src line 490. -/
def separator : String := "---\n\n"

/-- Embedding of the destination-file handling of transcribeSingleFile. -/
def writeOutput (continueMode : Bool) (existing : Option String) (block : String) : WriteResult :=
  match existing with
  | some existingContent =>
      if continueMode then
        let needsNl := if endsWithNewline existingContent then "" else "\n"
        WriteResult.written (existingContent ++ (needsNl ++ (separator ++ (block ++ "\n"))))
      else WriteResult.skipped
  | none => WriteResult.written (block ++ "\n")

/-- State transition of the destination file under one invocation. -/
def applyWrite (continueMode : Bool) (st : Option String) (block : String) : Option String :=
  match writeOutput continueMode st block with
  | WriteResult.written c => some c
  | WriteResult.skipped => st

/-- N successive continue-mode invocations, one block each, in order. -/
def appendRun (blocks : List String) (st : Option String) : Option String :=
  blocks.foldl (applyWrite true) st

/-! ## Batch queue (src lines 181-225 and 545-560)

The videos directory is abstracted by the list of file names it holds, and
the working directory by the predicate telling which transcript files exist.
The source sorts the full joined paths; since all entries share the
directory prefix, that order coincides with the code-unit order of the file
names used here. -/

/-- Embedding of getVideosFromQueue: keep names ending in .mp4 in any case,
sorted in the default JS sort order (lexicographic by code unit). -/
def getVideosFromQueue (files : List String) : List String :=
  List.insertionSort (fun a b => strLe a b = true)
    (files.filter fun f => strEndsWith (toLowerStr f) ".mp4")

/-- Embedding of isAlreadyTranscribed: the expected transcript name is the
basename without its extension plus the txt extension. -/
def isAlreadyTranscribed (fileExists : String → Bool) (videoName : String) : Bool :=
  fileExists (stripExt videoName ++ ".txt")

/-- Embedding of buildTranscribeQueue: drop (with a skip log, not a failure)
every candidate whose transcript already exists. -/
def buildTranscribeQueue (fileExists : String → Bool) (videoFiles : List String) : List String :=
  videoFiles.filter fun v => !(isAlreadyTranscribed fileExists v)

/-- Embedding of the sequential batch loop of main (src lines 545-560): the
per-item outcome is abstracted by a predicate (transcribeSingleFile returns
a boolean and never throws, every pipeline error being caught inside it), so
the loop visits every queue item and counts the successes. -/
def runBatch (succeeds : String → Bool) : List String → Nat
  | [] => 0
  | v :: q => (if succeeds v then 1 else 0) + runBatch succeeds q

/-- Final report of the batch run: completed count versus attempted count. -/
def batchReport (succeeds : String → Bool) (queue : List String) : Nat × Nat :=
  (runBatch succeeds queue, queue.length)

/-! ## downloadVideo (src lines 227-247)

The downloader run is abstracted by its exit code, and the scratch directory
after the run by its file listing.  A nonzero exit makes the run wrapper
reject, which downloadVideo propagates; afterwards the files matching the
fixed base name video. are collected and the FIRST one is returned, the
failure being raised only when there is no match. -/

/-- Models the JS expression f.startsWith(t). -/
def strStartsWith (s t : String) : Bool :=
  s.data.take t.data.length == t.data

/-- Embedding of downloadVideo(url, workDir). -/
def downloadVideo (exitCode : Nat) (workDirFiles : List String) : Except StageError String :=
  if exitCode ≠ 0 then
    Except.error (StageError.acquisition ("yt-dlp exited with code " ++ toString exitCode))
  else
    match workDirFiles.filter (fun f => strStartsWith f "video.") with
    | [] => Except.error (StageError.acquisition "Failed to identify the downloaded video file.")
    | f :: _ => Except.ok f

/-! ## Single-item error propagation (src lines 455-505 and 563-566)

The try block of transcribeSingleFile wraps the whole pipeline; its catch
clause logs the message of any stage error and makes the function return
false, and the finally clause deliberately performs no cleanup, preserving
the scratch directory.  main awaits the call and returns, discarding the
boolean, so a stage error never reaches the top-level catch that would call
process.exit(1): for every pipeline outcome the process exits 0. -/

structure SingleRunOutcome where
  success : Bool
  errorLog : Option String
  scratchRemoved : Bool
deriving DecidableEq, Repr

/-- Embedding of the catch and finally clauses of transcribeSingleFile,
given the outcome of the six pipeline stages. -/
def transcribeSingleFileRun (pipeline : Except StageError Unit) : SingleRunOutcome :=
  match pipeline with
  | Except.ok _ => { success := true, errorLog := none, scratchRemoved := false }
  | Except.error e =>
      { success := false
        errorLog := some ("Error: " ++ stageMessage e)
        scratchRemoved := false }

/-- Exit code of the process in single-file mode as a function of the
pipeline outcome: main discards the boolean result of
transcribeSingleFileRun and returns normally, so the top-level catch never
fires for a stage error. -/
def mainSingleFileExitCode (pipeline : Except StageError Unit) : Nat :=
  let _ := transcribeSingleFileRun pipeline
  0


/-! ## Helper lemmas about chunking -/

theorem join_map_mk (ll : List (List Char)) :
    String.join (ll.map String.mk) = String.mk ll.flatten := by
  rw [String.join_eq]
  congr 1
  rw [List.map_map]
  have h : String.data ∘ String.mk = id := funext fun l => rfl
  rw [h, List.map_id]

theorem chunkListGo_nil (k fuel : Nat) :
    chunkListGo k fuel ([] : List Char) = [] := by
  cases fuel <;> rfl

theorem chunkListGo_cons (k fuel : Nat) (a : Char) (rest : List Char) :
    chunkListGo k (fuel + 1) (a :: rest) =
      ((a :: rest).take k) :: chunkListGo k fuel ((a :: rest).drop k) := rfl

theorem chunkListGo_small (k fuel : Nat) (l : List Char) (hpos : 0 < l.length)
    (hk : l.length ≤ k) (hfuel : l.length ≤ fuel) : chunkListGo k fuel l = [l] := by
  cases l with
  | nil => simp at hpos
  | cons a rest =>
    cases fuel with
    | zero => simp at hfuel
    | succ fuel =>
      rw [chunkListGo_cons, List.take_of_length_le hk, List.drop_eq_nil_iff.mpr hk,
        chunkListGo_nil]

theorem chunkListGo_spec (k : Nat) (hk : 0 < k) :
    ∀ (fuel : Nat) (l : List Char), l.length ≤ fuel → l ≠ [] →
      ∃ cs c, chunkListGo k fuel l = cs ++ [c] ∧ (∀ x ∈ cs, x.length = k) ∧
        c ≠ [] ∧ c.length ≤ k ∧ (cs ++ [c]).flatten = l := by
  intro fuel
  induction fuel with
  | zero =>
    intro l hl hne
    cases l with
    | nil => exact absurd rfl hne
    | cons a rest => simp at hl
  | succ fuel ih =>
    intro l hl hne
    obtain ⟨a, rest, rfl⟩ := List.exists_cons_of_ne_nil hne
    by_cases hsmall : (a :: rest).length ≤ k
    · have hdrop : (a :: rest).drop k = [] := List.drop_eq_nil_iff.mpr hsmall
      refine ⟨[], (a :: rest).take k, ?_, by simp, ?_, ?_, ?_⟩
      · rw [chunkListGo_cons, hdrop, chunkListGo_nil]
        rfl
      · rw [List.take_of_length_le hsmall]
        simp
      · exact List.length_take_le k (a :: rest)
      · rw [List.take_of_length_le hsmall]
        simp
    · push_neg at hsmall
      have hdropne : (a :: rest).drop k ≠ [] := by
        intro h
        have := List.drop_eq_nil_iff.mp h
        omega
      have hdroplen : ((a :: rest).drop k).length ≤ fuel := by
        rw [List.length_drop]
        simp only [List.length_cons] at hl hsmall ⊢
        omega
      obtain ⟨cs, c, h1, h2, h3, h4, h5⟩ := ih ((a :: rest).drop k) hdroplen hdropne
      refine ⟨(a :: rest).take k :: cs, c, ?_, ?_, h3, h4, ?_⟩
      · rw [chunkListGo_cons, h1]
        rfl
      · intro x hx
        rcases List.mem_cons.mp hx with rfl | hmem
        · rw [List.length_take]
          omega
        · exact h2 x hmem
      · rw [List.cons_append, List.flatten_cons, h5, List.take_append_drop]

theorem chunkListGo_pair (k fuel : Nat) (l : List Char) (hlt : k < l.length)
    (hle : l.length ≤ 2 * k) (hfuel : l.length ≤ fuel) :
    chunkListGo k fuel l = [l.take k, l.drop k] := by
  cases l with
  | nil => simp at hlt
  | cons a rest =>
    cases fuel with
    | zero => simp at hfuel
    | succ fuel =>
      have h1 : 0 < ((a :: rest).drop k).length := by
        rw [List.length_drop]
        simp only [List.length_cons] at hlt ⊢
        omega
      have h2 : ((a :: rest).drop k).length ≤ k := by
        rw [List.length_drop]
        simp only [List.length_cons] at hle ⊢
        omega
      have h3 : ((a :: rest).drop k).length ≤ fuel := by
        rw [List.length_drop]
        simp only [List.length_cons] at hfuel hlt ⊢
        omega
      rw [chunkListGo_cons, chunkListGo_small k fuel _ h1 h2 h3]

theorem chunkString_pair (s : String) (k : Nat) (hlt : k < s.length)
    (hle : s.length ≤ 2 * k) :
    chunkString s k = [String.mk (s.data.take k), String.mk (s.data.drop k)] := by
  have hlen : s.length = s.data.length := rfl
  rw [hlen] at hlt hle
  unfold chunkString
  rw [chunkListGo_pair k s.data.length s.data hlt hle le_rfl]
  rfl

/-! ## Claim C7 -/

/-- C7: for every string s and every positive chunk size k, chunkString
splits s into contiguous, non-overlapping chunks: the chunks concatenate
back to s in order, every chunk except possibly the last has exactly k
characters, and for nonempty s the last chunk is nonempty with at most k
characters. -/
theorem c7_chunkString_partition (s : String) (k : Nat) (hk : 0 < k) :
    String.join (chunkString s k) = s ∧
    (s ≠ "" → ∃ cs c, chunkString s k = cs ++ [c] ∧
      (∀ x ∈ cs, x.length = k) ∧ 0 < c.length ∧ c.length ≤ k) := by
  by_cases hs : s.data = []
  · have hempty : s = "" := String.ext hs
    constructor
    · rw [hempty]
      rfl
    · intro hne
      exact absurd hempty hne
  · obtain ⟨cs, c, h1, h2, h3, h4, h5⟩ :=
      chunkListGo_spec k hk s.data.length s.data le_rfl hs
    constructor
    · unfold chunkString
      rw [h1, join_map_mk, h5]
    · intro _
      refine ⟨cs.map String.mk, String.mk c, ?_, ?_, ?_, ?_⟩
      · unfold chunkString
        rw [h1]
        simp
      · intro x hx
        obtain ⟨y, hy, rfl⟩ := List.mem_map.mp hx
        rw [String.length_mk]
        exact h2 y hy
      · rw [String.length_mk]
        exact List.length_pos.mpr h3
      · rw [String.length_mk]
        exact h4

/-- Witness for C7 at s = "abcde", k = 2 (chunks "ab", "cd", "e"). -/
theorem c7_chunkString_partition_witness :
    String.join (chunkString "abcde" 2) = "abcde" ∧
    ∃ cs c, chunkString "abcde" 2 = cs ++ [c] ∧
      (∀ x ∈ cs, x.length = 2) ∧ 0 < c.length ∧ c.length ≤ 2 := by
  obtain ⟨h1, h2⟩ := c7_chunkString_partition "abcde" 2 (by decide)
  exact ⟨h1, h2 (by decide)⟩

/-! ## Claim C2 -/

/-- C2: a transcript of length at most the 15000-character threshold causes
exactly one summarization request; a transcript of length 15001 causes at
least two chunk requests followed by exactly one final merge request whose
input is the partial summaries joined by double newlines. -/
theorem c2_summarizer_call_counts (oracle : ChatRequest → String) (lp short long : String)
    (hshort : short.length ≤ 15000) (hlong : long.length = 15001) :
    (summarizeText oracle short lp).1.length = 1 ∧
    ∃ chunkReqs mergeReq,
      (summarizeText oracle long lp).1 = chunkReqs ++ [mergeReq] ∧
      2 ≤ chunkReqs.length ∧
      (∀ r ∈ chunkReqs, ∃ i chunk, r = chunkSummaryRequest lp chunkReqs.length i chunk) ∧
      mergeReq = mergeSummaryRequest lp
        (String.intercalate "\n\n" (chunkReqs.map fun r => trimStr (oracle r))) := by
  constructor
  · unfold summarizeText
    rw [if_pos hshort]
    rfl
  · have hlt : 15000 < long.length := by omega
    have hle : long.length ≤ 2 * 15000 := by omega
    have hpair := chunkString_pair long 15000 hlt hle
    have hnot : ¬ long.length ≤ 15000 := by omega
    refine ⟨[chunkSummaryRequest lp 2 0 (String.mk (long.data.take 15000)),
             chunkSummaryRequest lp 2 1 (String.mk (long.data.drop 15000))],
            mergeSummaryRequest lp (String.intercalate "\n\n"
              [trimStr (oracle (chunkSummaryRequest lp 2 0 (String.mk (long.data.take 15000)))),
               trimStr (oracle (chunkSummaryRequest lp 2 1 (String.mk (long.data.drop 15000))))]),
            ?_, by simp, ?_, by simp⟩
    · unfold summarizeText
      rw [if_neg hnot, hpair]
      rfl
    · intro r hr
      rcases List.mem_cons.mp hr with rfl | hr
      · exact ⟨0, _, rfl⟩
      rcases List.mem_cons.mp hr with rfl | hr
      · exact ⟨1, _, rfl⟩
      simp at hr

/-- Witness for C2 at a one-character transcript and a 15001-character
transcript, with a constant service oracle. -/
theorem c2_summarizer_call_counts_witness :
    (summarizeText (fun _ => "- ok") "a" "in Polish").1.length = 1 ∧
    ∃ chunkReqs mergeReq,
      (summarizeText (fun _ => "- ok") (String.mk (List.replicate 15001 'a')) "in Polish").1
          = chunkReqs ++ [mergeReq] ∧
      2 ≤ chunkReqs.length ∧
      (∀ r ∈ chunkReqs, ∃ i chunk, r = chunkSummaryRequest "in Polish" chunkReqs.length i chunk) ∧
      mergeReq = mergeSummaryRequest "in Polish"
        (String.intercalate "\n\n" (chunkReqs.map fun r => trimStr ((fun _ => "- ok") r))) :=
  c2_summarizer_call_counts (fun _ => "- ok") "in Polish" "a"
    (String.mk (List.replicate 15001 'a'))
    (by decide)
    (by rw [String.length_mk, List.length_replicate])

/-! ## Claim C1 -/

/-- C1 counterexample: a zero-byte initial payload (getFileSize also reports
0 when the file cannot be measured) has size at most the limit, yet the
enforcer does not return it: it performs the second transcoding attempt at
16 kbps and returns the recompressed file instead. -/
theorem c1_size_enforcer_counterexample :
    (0 : Nat) ≤ 26214400 ∧
    (ensureAudioUnderLimit 0 17 26214400).2 = Except.ok AudioFile.recompressed ∧
    AudioFile.recompressed ≠ AudioFile.original ∧
    (ensureAudioUnderLimit 0 17 26214400).1 = [16] :=
  ⟨by decide, rfl, by decide, rfl⟩

/-- C1 (amended): the size-enforcement step performs at most two transcoding
attempts in total for any limit (the initial extraction at the default 24
kbps plus at most one recompression); the initial payload is returned as-is
when its measured size is positive and at most the limit; otherwise exactly
one further transcoding at the fixed 16 kbps into the distinct recompressed
file occurs, whose result is returned when its size is positive and within
the limit, and otherwise the step fails permanently with the error carrying
the measured size and the limit. -/
theorem c1_size_enforcer_two_attempts (size newSize limit : Nat) :
    (pipelineTranscodeBitrates size newSize limit).length ≤ 2 ∧
    (ensureAudioUnderLimit size newSize limit).1.length ≤ 1 ∧
    (0 < size → size ≤ limit →
      ensureAudioUnderLimit size newSize limit = ([], Except.ok AudioFile.original)) ∧
    (¬ (0 < size ∧ size ≤ limit) → 0 < newSize → newSize ≤ limit →
      ensureAudioUnderLimit size newSize limit = ([16], Except.ok AudioFile.recompressed)) ∧
    (¬ (0 < size ∧ size ≤ limit) → ¬ (0 < newSize ∧ newSize ≤ limit) →
      ensureAudioUnderLimit size newSize limit = ([16], Except.error (newSize, limit))) := by
  have hB : (ensureAudioUnderLimit size newSize limit).1.length ≤ 1 := by
    unfold ensureAudioUnderLimit
    split_ifs <;> simp
  refine ⟨?_, hB, ?_, ?_, ?_⟩
  · unfold pipelineTranscodeBitrates
    simp only [List.length_cons]
    omega
  · intro hpos hle
    unfold ensureAudioUnderLimit
    rw [if_pos ⟨hpos, hle⟩]
  · intro hn hpos hle
    unfold ensureAudioUnderLimit
    rw [if_neg hn, if_pos ⟨hpos, hle⟩]
  · intro hn1 hn2
    unfold ensureAudioUnderLimit
    rw [if_neg hn1, if_neg hn2]

/-- Witness for C1 at a 30 MB initial payload whose 16 kbps recompression
fits under the 25 MiB default limit. -/
theorem c1_size_enforcer_two_attempts_witness :
    ensureAudioUnderLimit 30000000 10000000 26214400 =
      ([16], Except.ok AudioFile.recompressed) :=
  (c1_size_enforcer_two_attempts 30000000 10000000 26214400).2.2.2.1
    (by decide) (by decide) (by decide)

/-! ## Helper lemmas about continue-mode appending -/

theorem endsWithNewline_append_newline (x : String) :
    endsWithNewline (x ++ "\n") = true := by
  unfold endsWithNewline
  rw [String.data_append, show ("\n" : String).data = ['\n'] from rfl,
    List.getLast?_concat]
  rfl

theorem appendRun_acc : ∀ (bs : List String) (c : String), endsWithNewline c = true →
    appendRun bs (some c) = some (c ++ blockTail separator bs) := by
  intro bs
  induction bs with
  | nil =>
    intro c h
    show some c = some (c ++ blockTail separator [])
    rw [show blockTail separator [] = "" from rfl]
    simp
  | cons b bs ih =>
    intro c h
    have hw : applyWrite true (some c) b = some (c ++ (separator ++ (b ++ "\n"))) := by
      unfold applyWrite writeOutput
      simp [h]
    have hstep : appendRun (b :: bs) (some c) = appendRun bs (applyWrite true (some c) b) :=
      rfl
    have hnl : endsWithNewline (c ++ (separator ++ (b ++ "\n"))) = true := by
      have hassoc : c ++ (separator ++ (b ++ "\n")) = ((c ++ separator) ++ b) ++ "\n" := by
        simp [String.append_assoc]
      rw [hassoc]
      exact endsWithNewline_append_newline _
    rw [hstep, hw, ih _ hnl]
    congr 1
    rw [show blockTail separator (b :: bs) =
      separator ++ (b ++ ("\n" ++ blockTail separator bs)) from rfl]
    simp [String.append_assoc]

theorem sepJoin_map_eq (sep : String) : ∀ (bs : List String) (b : String),
    sepJoin sep ((b :: bs).map (fun x => x ++ "\n")) = b ++ ("\n" ++ blockTail sep bs) := by
  intro bs
  induction bs with
  | nil =>
    intro b
    show b ++ "\n" = b ++ ("\n" ++ blockTail sep [])
    rw [show blockTail sep [] = "" from rfl]
    simp
  | cons b2 bs ih =>
    intro b
    show sepJoin sep ((b ++ "\n") :: (b2 ++ "\n") :: bs.map (fun x => x ++ "\n")) = _
    rw [show sepJoin sep ((b ++ "\n") :: (b2 ++ "\n") :: bs.map (fun x => x ++ "\n")) =
      (b ++ "\n") ++ sep ++ sepJoin sep ((b2 ++ "\n") :: bs.map (fun x => x ++ "\n")) from rfl]
    have hmap : (b2 ++ "\n") :: bs.map (fun x => x ++ "\n") = ((b2 :: bs).map fun x => x ++ "\n") :=
      rfl
    rw [hmap, ih b2,
      show blockTail sep (b2 :: bs) = sep ++ (b2 ++ ("\n" ++ blockTail sep bs)) from rfl]
    simp [String.append_assoc]

/-! ## Claim C3 -/

/-- C3: a continue-mode write on an existing destination appends a suffix
made of a leading newline exactly when the existing content does not already
end in one, then the literal separator line, then the block with its
trailing newline — the prior content is a prefix of the result and the
length strictly grows; on a missing destination the file is created fresh;
and N continue-mode invocations starting from a missing destination produce
exactly the N blocks in call order, separator-delimited. -/
theorem c3_continue_mode_append_growth (b blk e : String) (bs : List String) :
    appendRun (b :: bs) none = some (sepJoin separator ((b :: bs).map fun x => x ++ "\n")) ∧
    writeOutput true none blk = WriteResult.written (blk ++ "\n") ∧
    ∃ t, writeOutput true (some e) blk = WriteResult.written (e ++ t) ∧
      t = (if endsWithNewline e then "" else "\n") ++ (separator ++ (blk ++ "\n")) ∧
      0 < t.length := by
  refine ⟨?_, rfl, ?_⟩
  · have h0 : appendRun (b :: bs) none = appendRun bs (some (b ++ "\n")) := rfl
    rw [h0, appendRun_acc bs _ (endsWithNewline_append_newline b), sepJoin_map_eq,
      String.append_assoc]
  · refine ⟨_, ?_, rfl, ?_⟩
    · unfold writeOutput
      rfl
    · have hsep : separator.length = 5 := rfl
      have hnlen : ("\n" : String).length = 1 := rfl
      cases hew : endsWithNewline e <;>
        simp [hew, String.length_append, hsep, hnlen]

/-! ## Claim C4 -/

/-- C4: behaviour of the code at the failing input of the claim — in fresh
mode (continue off) with an existing destination, the writer skips (the
function logs and returns false) instead of failing with OutputExistsError;
the second invocation does leave the file content exactly as the first
invocation wrote it. -/
theorem c4_fresh_mode_skips_not_fails (blk blk2 : String) :
    writeOutput false (some (blk ++ "\n")) blk2 = WriteResult.skipped ∧
    applyWrite false (applyWrite false none blk) blk2 = some (blk ++ "\n") := by
  exact ⟨rfl, rfl⟩

/-! ## Helper lemmas about the queue order -/

theorem listLexLe_total : ∀ (a b : List Char), listLexLe a b = true ∨ listLexLe b a = true := by
  intro a
  induction a with
  | nil =>
    intro b
    left
    rfl
  | cons x xs ih =>
    intro b
    cases b with
    | nil =>
      right
      rfl
    | cons y ys =>
      by_cases h1 : x.toNat < y.toNat
      · left
        simp [listLexLe, h1]
      · by_cases h2 : y.toNat < x.toNat
        · right
          simp [listLexLe, h2]
        · rcases ih ys with h | h
          · left
            simp [listLexLe, h1, h2, h]
          · right
            simp [listLexLe, h1, h2, h]

theorem listLexLe_trans : ∀ (a b c : List Char), listLexLe a b = true → listLexLe b c = true →
    listLexLe a c = true := by
  intro a
  induction a with
  | nil =>
    intro b c _ _
    rfl
  | cons x xs ih =>
    intro b c hab hbc
    cases b with
    | nil => simp [listLexLe] at hab
    | cons y ys =>
      cases c with
      | nil => simp [listLexLe] at hbc
      | cons z zs =>
        simp only [listLexLe] at hab hbc ⊢
        by_cases h1 : x.toNat < y.toNat
        · by_cases h3 : y.toNat < z.toNat
          · rw [if_pos (show x.toNat < z.toNat by omega)]
          · by_cases h4 : z.toNat < y.toNat
            · rw [if_neg h3, if_pos h4] at hbc
              exact absurd hbc (by simp)
            · rw [if_pos (show x.toNat < z.toNat by omega)]
        · by_cases h2 : y.toNat < x.toNat
          · rw [if_neg h1, if_pos h2] at hab
            exact absurd hab (by simp)
          · rw [if_neg h1, if_neg h2] at hab
            by_cases h3 : y.toNat < z.toNat
            · rw [if_pos (show x.toNat < z.toNat by omega)]
            · by_cases h4 : z.toNat < y.toNat
              · rw [if_neg h3, if_pos h4] at hbc
                exact absurd hbc (by simp)
              · rw [if_neg h3, if_neg h4] at hbc
                rw [if_neg (show ¬ x.toNat < z.toNat by omega),
                  if_neg (show ¬ z.toNat < x.toNat by omega)]
                exact ih ys zs hab hbc

theorem runBatch_eq_countP (succeeds : String → Bool) :
    ∀ q : List String, runBatch succeeds q = q.countP succeeds := by
  intro q
  induction q with
  | nil => rfl
  | cons v q ih =>
    cases h : succeeds v with
    | true =>
      simp [runBatch, List.countP_cons, h, ih]
      omega
    | false => simp [runBatch, List.countP_cons, h, ih]

/-! ## Claim C5 -/

/-- C5: the batch scheduler sorts the mp4 candidates lexicographically and
removes exactly those whose expected transcript already exists (a skip, not
a failure); for candidates a.mp4, b.mp4, c.mp4 with b.txt present the run
queue is exactly a.mp4 then c.mp4; the sequential loop visits every queue
item whatever the per-item outcomes are and the final report is the count
of succeeded items versus attempted items. -/
theorem c5_batch_queue (files queue : List String) (fileExists succeeds : String → Bool) :
    buildTranscribeQueue (fun n => n == "b.txt")
        (getVideosFromQueue ["a.mp4", "b.mp4", "c.mp4"]) = ["a.mp4", "c.mp4"] ∧
    List.Sorted (fun a b => strLe a b = true) (getVideosFromQueue files) ∧
    (getVideosFromQueue files).Perm (files.filter fun f => strEndsWith (toLowerStr f) ".mp4") ∧
    (∀ v, v ∈ buildTranscribeQueue fileExists files ↔
      v ∈ files ∧ isAlreadyTranscribed fileExists v = false) ∧
    batchReport succeeds queue = (queue.countP succeeds, queue.length) := by
  haveI htot : IsTotal String fun a b => strLe a b = true :=
    ⟨fun a b => listLexLe_total a.data b.data⟩
  haveI htr : IsTrans String fun a b => strLe a b = true :=
    ⟨fun a b c => listLexLe_trans a.data b.data c.data⟩
  refine ⟨by decide, ?_, ?_, ?_, ?_⟩
  · exact List.sorted_insertionSort _ _
  · exact List.perm_insertionSort _ _
  · intro v
    unfold buildTranscribeQueue
    rw [List.mem_filter]
    simp [Bool.not_eq_true']
  · unfold batchReport
    rw [runBatch_eq_countP]

/-! ## Helper lemma about the retry backoff -/

theorem transcribeWithRetry_zero (api : Nat → APIOutcome) (baseDelay attempt : Nat) :
    transcribeWithRetry api baseDelay attempt 0 =
      retryOutcome (api attempt) ([], Except.error TranscribeFailure.connectivity) :=
  rfl

theorem transcribeWithRetry_succ (api : Nat → APIOutcome) (baseDelay attempt r : Nat) :
    transcribeWithRetry api baseDelay attempt (r + 1) =
      retryOutcome (api attempt)
        (attempt * baseDelay :: (transcribeWithRetry api baseDelay (attempt + 1) r).1,
          (transcribeWithRetry api baseDelay (attempt + 1) r).2) :=
  rfl

theorem transcribeWithRetry_delays (capi : Nat → APIOutcome) (baseDelay : Nat) :
    ∀ (remaining attempt : Nat), ∃ k, k ≤ remaining ∧
      (transcribeWithRetry capi baseDelay attempt remaining).1 =
        (List.range k).map fun i => (attempt + i) * baseDelay := by
  intro remaining
  induction remaining with
  | zero =>
    intro attempt
    refine ⟨0, le_rfl, ?_⟩
    rw [transcribeWithRetry_zero]
    cases capi attempt with
    | success t => by_cases h : trimStr t = "" <;> simp [retryOutcome, h]
    | connectivityFailure => rfl
    | otherFailure => rfl
  | succ r ih =>
    intro attempt
    cases hc : capi attempt with
    | success t =>
      refine ⟨0, by omega, ?_⟩
      rw [transcribeWithRetry_succ, hc]
      by_cases h : trimStr t = "" <;> simp [retryOutcome, h]
    | otherFailure =>
      refine ⟨0, by omega, ?_⟩
      rw [transcribeWithRetry_succ, hc]
      simp [retryOutcome]
    | connectivityFailure =>
      obtain ⟨k, hk, hfst⟩ := ih (attempt + 1)
      refine ⟨k + 1, by omega, ?_⟩
      rw [transcribeWithRetry_succ, hc]
      simp only [retryOutcome]
      rw [hfst, List.range_succ_eq_map]
      rw [List.map_cons, List.map_map]
      have hfun : ((fun i => (attempt + i) * baseDelay) ∘ Nat.succ) =
          fun i => (attempt + 1 + i) * baseDelay := by
        funext i
        simp only [Function.comp]
        congr 1
        omega
      rw [hfun]
      simp

/-! ## Claim C6 -/

/-- C6: transcribeAudio makes exactly one service request (its result
depends only on the first response) and reports blank text as the hard
empty-transcription failure; the local-file-mode retry wrapper, modelled
from the spec because it is not part of src/, never retries empty text or
non-connectivity failures (both surface on the first occurrence) and
retries connectivity failures with linearly increasing backoff of
attempt times baseDelay, within the fixed attempt bound. -/
theorem c6_transcription_retry_policy (api api2 : Nat → Option String)
    (capi : Nat → APIOutcome) (baseDelay attempt remaining : Nat) (t : String)
    (hfirst : api 0 = api2 0) :
    transcribeAudio api = transcribeAudio api2 ∧
    (trimStr ((api 0).getD "") = "" →
      transcribeAudio api = Except.error StageError.emptyTranscription) ∧
    (capi attempt = APIOutcome.success t → trimStr t = "" →
      transcribeWithRetry capi baseDelay attempt remaining =
        ([], Except.error TranscribeFailure.empty)) ∧
    (capi attempt = APIOutcome.otherFailure →
      transcribeWithRetry capi baseDelay attempt remaining =
        ([], Except.error TranscribeFailure.nonRetryable)) ∧
    (∃ k, k ≤ remaining ∧
      (transcribeWithRetry capi baseDelay attempt remaining).1 =
        (List.range k).map fun i => (attempt + i) * baseDelay) := by
  refine ⟨?_, ?_, ?_, ?_, transcribeWithRetry_delays capi baseDelay remaining attempt⟩
  · unfold transcribeAudio
    rw [hfirst]
  · intro h
    unfold transcribeAudio
    simp [h]
  · intro h1 h2
    cases remaining with
    | zero =>
      rw [transcribeWithRetry_zero, h1]
      simp [retryOutcome, h2]
    | succ r =>
      rw [transcribeWithRetry_succ, h1]
      simp [retryOutcome, h2]
  · intro h1
    cases remaining with
    | zero =>
      rw [transcribeWithRetry_zero, h1]
      simp [retryOutcome]
    | succ r =>
      rw [transcribeWithRetry_succ, h1]
      simp [retryOutcome]

/-- Witness for C6: a service returning blank text on the first attempt,
and a wrapper run over a service that always fails with a connectivity
error, with base delay 100 and three allowed retries starting at attempt
one. -/
theorem c6_transcription_retry_policy_witness :
    transcribeAudio (fun _ => some "  ") = transcribeAudio (fun _ => some "  ") ∧
    transcribeAudio (fun _ => some "  ") = Except.error StageError.emptyTranscription ∧
    transcribeWithRetry (fun _ => APIOutcome.success "  ") 100 1 3 =
      ([], Except.error TranscribeFailure.empty) ∧
    transcribeWithRetry (fun _ => APIOutcome.otherFailure) 100 1 3 =
      ([], Except.error TranscribeFailure.nonRetryable) ∧
    ∃ k, k ≤ 3 ∧
      (transcribeWithRetry (fun _ => APIOutcome.connectivityFailure) 100 1 3).1 =
        (List.range k).map fun i => (1 + i) * 100 := by
  obtain ⟨h1, h2, h3, _, _⟩ :=
    c6_transcription_retry_policy (fun _ => some "  ") (fun _ => some "  ")
      (fun _ => APIOutcome.success "  ") 100 1 3 "  " rfl
  obtain ⟨_, _, _, h4, _⟩ :=
    c6_transcription_retry_policy (fun _ => some "  ") (fun _ => some "  ")
      (fun _ => APIOutcome.otherFailure) 100 1 3 "  " rfl
  obtain ⟨_, _, _, _, h5⟩ :=
    c6_transcription_retry_policy (fun _ => some "  ") (fun _ => some "  ")
      (fun _ => APIOutcome.connectivityFailure) 100 1 3 "  " rfl
  exact ⟨h1, h2 (by decide), h3 rfl (by decide), h4 rfl, h5⟩

/-! ## Claim C8 -/

/-- C8 counterexample: a failing acquisition stage in single-file mode does
not terminate the process with a nonzero exit code; the error is caught
inside the per-file pipeline and the process exits 0. -/
theorem c8_single_mode_exit_counterexample :
    mainSingleFileExitCode
      (Except.error (StageError.acquisition "Failed to identify the downloaded video file."))
      = 0 ∧ ¬ (0 : Nat) ≠ 0 :=
  ⟨rfl, by decide⟩

/-- C8 (amended): in single-item mode every pipeline error aborts the item
immediately, is reported with its human-readable stage message, and the
scratch directory is preserved; but the error is caught inside the per-file
pipeline, so the process exit code is 0 rather than nonzero. -/
theorem c8_single_mode_error_handling (e : StageError) :
    transcribeSingleFileRun (Except.error e) =
      { success := false
        errorLog := some ("Error: " ++ stageMessage e)
        scratchRemoved := false } ∧
    mainSingleFileExitCode (Except.error e) = 0 :=
  ⟨rfl, rfl⟩

/-! ## Claim C9 -/

/-- C9 counterexample: with a zero downloader exit code and two files
matching the fixed base name in the scratch directory, acquisition does not
fail on the ambiguity; it returns the first match. -/
theorem c9_download_ambiguous_counterexample :
    downloadVideo 0 ["video.mp4", "video.webm"] = Except.ok "video.mp4" := rfl

/-- C9 (amended): remote acquisition fails when the downloader exits
nonzero and when no file in the scratch directory matches the fixed base
name; when one or more files match it returns the first match, ambiguity
not being detected. -/
theorem c9_download_video (exitCode : Nat) (files : List String) :
    (exitCode ≠ 0 → downloadVideo exitCode files =
      Except.error (StageError.acquisition ("yt-dlp exited with code " ++ toString exitCode))) ∧
    (exitCode = 0 → files.filter (fun f => strStartsWith f "video.") = [] →
      downloadVideo exitCode files =
        Except.error (StageError.acquisition "Failed to identify the downloaded video file.")) ∧
    (∀ f rest, exitCode = 0 →
      files.filter (fun g => strStartsWith g "video.") = f :: rest →
      downloadVideo exitCode files = Except.ok f) := by
  refine ⟨?_, ?_, ?_⟩
  · intro h
    unfold downloadVideo
    rw [if_pos h]
  · intro h hf
    unfold downloadVideo
    rw [if_neg (by simp [h]), hf]
  · intro f rest h hf
    unfold downloadVideo
    rw [if_neg (by simp [h]), hf]

/-- Witness for C9 at a successful download whose scratch directory holds
one unrelated file and one match. -/
theorem c9_download_video_witness :
    downloadVideo 0 ["x.bin", "video.mp4"] = Except.ok "video.mp4" :=
  (c9_download_video 0 ["x.bin", "video.mp4"]).2.2 "video.mp4" [] rfl (by decide)

/-! ## Claim C10 -/

/-- C10: the output block renderer always produces the same fixed layout in
the same order: the optional title heading, the Podsumowanie summary
section first (with the none marker substituted for an empty summary), a
blank line, then the Transkrypt section, then a trailing newline; the
summary-before-transcript order and the section labels are fixed by the
code, no input of the function selects another order. -/
theorem c10_output_block_layout (titleOpt : Option String) (summary transcript : String) :
    buildOutputBlock titleOpt summary transcript =
      (match titleOpt with
       | some t => if t = "" then "" else "## " ++ t ++ "\n"
       | none => "") ++
      "### 📋 Podsumowanie\n" ++
      (if summary = "" then "(none)" else summary) ++
      "\n\n### 📖 Transkrypt\n" ++ transcript ++ "\n" := by
  cases titleOpt with
  | none =>
    have hL : buildOutputBlock none summary transcript =
        "### 📋 Podsumowanie" ++ "\n" ++ (if summary = "" then "(none)" else summary) ++
          "\n" ++ "" ++ "\n" ++ "### 📖 Transkrypt" ++ "\n" ++ transcript ++ "\n" ++ "" := rfl
    rw [hL]
    apply String.ext
    simp [String.data_append, List.append_assoc, List.cons_append]
  | some t =>
    have hL : buildOutputBlock (some t) summary transcript =
        String.intercalate "\n"
          ((if t = "" then [] else ["## " ++ t]) ++
            ["### 📋 Podsumowanie", (if summary = "" then "(none)" else summary), "",
             "### 📖 Transkrypt", transcript, ""]) := rfl
    have hR : (match some t with
               | some t => if t = "" then "" else "## " ++ t ++ "\n"
               | none => ("" : String)) = (if t = "" then "" else "## " ++ t ++ "\n") := rfl
    by_cases ht : t = ""
    · rw [hL, if_pos ht, hR, if_pos ht]
      rw [show ("\n".intercalate
          (([] : List String) ++
            ["### 📋 Podsumowanie", (if summary = "" then "(none)" else summary), "",
             "### 📖 Transkrypt", transcript, ""])) =
          "### 📋 Podsumowanie" ++ "\n" ++ (if summary = "" then "(none)" else summary) ++
            "\n" ++ "" ++ "\n" ++ "### 📖 Transkrypt" ++ "\n" ++ transcript ++ "\n" ++ ""
          from rfl]
      apply String.ext
      simp [String.data_append, List.append_assoc, List.cons_append]
    · rw [hL, if_neg ht, hR, if_neg ht]
      rw [show ("\n".intercalate
          (["## " ++ t] ++
            ["### 📋 Podsumowanie", (if summary = "" then "(none)" else summary), "",
             "### 📖 Transkrypt", transcript, ""])) =
          ("## " ++ t) ++ "\n" ++ "### 📋 Podsumowanie" ++ "\n" ++
            (if summary = "" then "(none)" else summary) ++
            "\n" ++ "" ++ "\n" ++ "### 📖 Transkrypt" ++ "\n" ++ transcript ++ "\n" ++ ""
          from rfl]
      apply String.ext
      simp [String.data_append, List.append_assoc, List.cons_append]
